import Mathlib

/-!
Verification of the ingestion/merge engine and the rotation scheduler of
src/src/wasm/src/lib.rs (playback-frontend).

Shallow embedding conventions:
- The three thread-local cells REPLAY_DATA, ANIMATION_RUNNING and the
  current_service_index field of GPU_RENDERER are gathered into one record
  SysState.  rendererInit records whether GPU_RENDERER holds a renderer
  (init_webgpu completed); when it is false, reads of current_service_index
  yield the stored value (the source reads unwrap_or(0), and the index can
  only ever have been written while a renderer existed) and writes to it are
  skipped, exactly as the source's if-let does.
- f32 coordinates are modelled as exact rationals; the source literals 0.3
  and 0.15 become (3/10 : Rat) and (3/20 : Rat).
- A chunk argument is the decoded content of the Arrow bytes: some ids is
  the sequence of values of the id column over all record batches in
  encounter order (a missing id column or zero batches gives some []),
  none is a malformed chunk (FileReader / batch error).  Decoding happens
  before any state mutation in the source, which the embedding mirrors.
- chrono timestamps are passed in as an opaque `now` string.
-/

deriving instance DecidableEq for Except

namespace Playback

/-- ServiceNode of lib.rs: one displayable entity. -/
structure ServiceNode where
  id : String
  x : ℚ
  y : ℚ
  status : String
deriving DecidableEq

/-- ReplayData of lib.rs: the single replay state record. -/
structure ReplayData where
  services : List ServiceNode
  all_service_ids : List String
  timestamp : String
  job_id : String
deriving DecidableEq

/-- The three error kinds of the core operations. -/
inductive IngestErr where
  | decode
  | noData
  | rendererUnavailable
deriving DecidableEq

/-- The process-wide mutable cells of lib.rs gathered into one state. -/
structure SysState where
  replay : Option ReplayData
  running : Bool
  currentIndex : Nat
  rendererInit : Bool
deriving DecidableEq

/-- Initial state: no replay data, animation stopped, index 0; r tells
whether init_webgpu has installed a renderer. -/
def initState (r : Bool) : SysState :=
  { replay := none, running := false, currentIndex := 0, rendererInit := r }

/-- The services list as every operation reads it (unwrap_or_default). -/
def servicesOf (s : SysState) : List ServiceNode :=
  (s.replay.map (fun d => d.services)).getD []

/-- The all_service_ids list, empty when no replay data exists. -/
def allIdsOf (s : SysState) : List String :=
  (s.replay.map (fun d => d.all_service_ids)).getD []

/-- The job_id field, none when no replay data exists. -/
def jobIdOf (s : SysState) : Option String :=
  s.replay.map (fun d => d.job_id)

/-- One step of the per-chunk dedup loop (the unique_ids HashSet of the
extraction phase; membership in the accumulated list coincides with
membership in the set). -/
def dedupStep (acc : List String) (v : String) : List String :=
  if v ∈ acc then acc else acc ++ [v]

/-- Extraction phase of append_chunk / parse_arrow_replay: the id values of
the chunk, first occurrence kept, encounter order preserved
(new_service_ids). -/
def dedupIds (l : List String) : List String :=
  l.foldl dedupStep []

/-- One step of the merge loop: the all_existing_ids HashSet check plus the
push onto all_service_ids, counting how many were added. -/
def mergeStep (acc : List String × Nat) (v : String) : List String × Nat :=
  if v ∈ acc.1 then acc else (acc.1 ++ [v], acc.2 + 1)

/-- Merge phase of append_chunk / parse_arrow_replay: fold the incoming
(already chunk-deduped) ids into the existing all_service_ids, returning the
new list and the number of ids actually added. -/
def mergeIds (existing incoming : List String) : List String × Nat :=
  incoming.foldl mergeStep (existing, 0)

/-- Regeneration of the services list from all_service_ids, lib.rs lines
673-681 / 688-695 / 774-781 / 795-802:
x = i * 0.3 - len * 0.15, y = 0, status healthy. -/
def regen (ids : List String) : List ServiceNode :=
  ids.enum.map (fun p =>
    { id := p.2
      x := (p.1 : ℚ) * (3/10) - (ids.length : ℚ) * (3/20)
      y := 0
      status := "healthy" })

/-- append_chunk (lib.rs 624-712).  Returns the new state and, on success,
the added_count that the source computes (the wasm export discards it after
logging). -/
def append_chunk (input : Option (List String)) (now : String) (s : SysState) :
    SysState × Except IngestErr Nat :=
  match input with
  | none => (s, Except.error IngestErr.decode)
  | some chunkIds =>
    let new_service_ids := dedupIds chunkIds
    match s.replay with
    | some d =>
      let m := mergeIds d.all_service_ids new_service_ids
      let svcs := if m.2 > 0 then regen m.1 else d.services
      ({ s with replay := some { d with
            services := svcs
            all_service_ids := m.1
            timestamp := now } },
       Except.ok m.2)
    | none =>
      let data : ReplayData :=
        { services := regen new_service_ids
          all_service_ids := new_service_ids
          timestamp := now
          job_id := new_service_ids.head?.getD "" }
      ({ s with replay := some data }, Except.ok new_service_ids.length)

/-- parse_arrow_replay (lib.rs 716-822), the full-replace/merge path.
job_id is set to the last id value encountered in the file (deduped or
not), empty string when the file holds no ids.  Returns the snapshot the
source serializes back to JavaScript. -/
def parse_arrow_replay (input : Option (List String)) (now : String) (s : SysState) :
    SysState × Except IngestErr ReplayData :=
  match input with
  | none => (s, Except.error IngestErr.decode)
  | some chunkIds =>
    let new_service_ids := dedupIds chunkIds
    let jid := chunkIds.getLast?.getD ""
    match s.replay with
    | some d =>
      let m := mergeIds d.all_service_ids new_service_ids
      let svcs := if m.2 > 0 then regen m.1 else d.services
      let d1 : ReplayData :=
        { services := svcs
          all_service_ids := m.1
          timestamp := now
          job_id := jid }
      ({ s with replay := some d1 }, Except.ok d1)
    | none =>
      let data : ReplayData :=
        { services := regen new_service_ids
          all_service_ids := new_service_ids
          timestamp := now
          job_id := jid }
      ({ s with replay := some data }, Except.ok data)

/-- get_service_count (lib.rs 900-905): services length, 0 when no replay
data exists.  A pure read, total by its type. -/
def get_service_count (s : SysState) : Nat :=
  (s.replay.map (fun d => d.services.length)).getD 0

/-- Placeholder node used only to express the in-bounds list access
services[service_index % services.len()] without a dependent index. -/
def dummyNode : ServiceNode :=
  { id := "", x := 0, y := 0, status := "" }

/-- render_service_by_index (lib.rs 909-930).  Empty services fails with
NoDataError before anything else; otherwise the node at index
i % services.len() is rendered, which requires the renderer (the render
itself fails with RendererUnavailable when init_webgpu never ran).  The
state is read, never written. -/
def render_service_by_index (i : Nat) (s : SysState) :
    SysState × Except IngestErr ServiceNode :=
  let svcs := servicesOf s
  if svcs.isEmpty then (s, Except.error IngestErr.noData)
  else if s.rendererInit then
    (s, Except.ok (svcs.getD (i % svcs.length) dummyNode))
  else (s, Except.error IngestErr.rendererUnavailable)

/-- start_service_animation (lib.rs 826-866).  Already running: no-op ok.
Empty services: NoDataError.  Otherwise the index is reset to 0 (the
if-let write is skipped when no renderer exists), running is set to true,
and then: with exactly one service the node is rendered once, whose failure
(renderer unavailable) propagates AFTER running was already set; with more
services start_self_managing_loop renders (ignoring errors) and arms a
timer, returning ok. -/
def start_service_animation (s : SysState) :
    SysState × Except IngestErr Unit :=
  if s.running then (s, Except.ok ())
  else
    let svcs := servicesOf s
    if svcs.isEmpty then (s, Except.error IngestErr.noData)
    else
      let s1 := if s.rendererInit then { s with currentIndex := 0 } else s
      let s2 := { s1 with running := true }
      if svcs.length == 1 then
        if s.rendererInit then (s2, Except.ok ())
        else (s2, Except.error IngestErr.rendererUnavailable)
      else (s2, Except.ok ())

/-- What a firing transition timer did besides updating state. -/
structure TransitionFx where
  rendered : Bool
  rearmed : Bool
deriving DecidableEq

/-- The transition closure armed by schedule_next_service_transition
(lib.rs 982-1030).  Stale (running false): exit with no side effect.
Services re-read at fire time; empty: clear running and stop.  Otherwise
advance current_service_index to (old + 1) % services.len() (the write is
skipped when no renderer exists, and the render then fails silently) and
re-arm exactly one new timer. -/
def transition (s : SysState) : SysState × TransitionFx :=
  if !s.running then (s, { rendered := false, rearmed := false })
  else
    let svcs := servicesOf s
    if svcs.isEmpty then
      ({ s with running := false }, { rendered := false, rearmed := false })
    else
      let s1 :=
        if s.rendererInit then
          { s with currentIndex := (s.currentIndex + 1) % svcs.length }
        else s
      (s1, { rendered := s.rendererInit, rearmed := true })

/-- stop_animation (lib.rs 1047-1054): clear the running flag, nothing
else; always ok. -/
def stop_animation (s : SysState) : SysState × Except IngestErr Unit :=
  ({ s with running := false }, Except.ok ())

/-- One externally triggered event: an ingestion call, a timer firing, or a
scheduler call. -/
inductive Step where
  | append (input : Option (List String)) (now : String)
  | replace (input : Option (List String)) (now : String)
  | fire
  | start
  | stop
  | renderBy (i : Nat)
deriving DecidableEq

/-- State reached by one event (results discarded). -/
def applyStep (s : SysState) (st : Step) : SysState :=
  match st with
  | Step.append input now => (append_chunk input now s).1
  | Step.replace input now => (parse_arrow_replay input now s).1
  | Step.fire => (transition s).1
  | Step.start => (start_service_animation s).1
  | Step.stop => (stop_animation s).1
  | Step.renderBy i => (render_service_by_index i s).1

/-- State after a sequence of events. -/
def runSteps (steps : List Step) (s : SysState) : SysState :=
  steps.foldl applyStep s

/-- Whether a step is one of the two ingestion calls. -/
def isIngest : Step → Bool
  | Step.append _ _ => true
  | Step.replace _ _ => true
  | _ => false

/-! ### Lemmas about the merge and dedup folds -/

/-- The merge fold never disturbs the already-accumulated list: the
accumulator stays a prefix of the result. -/
theorem merge_fold_prefix (l : List String) (acc : List String × Nat) :
    acc.1 <+: (List.foldl mergeStep acc l).1 := by
  induction l generalizing acc with
  | nil => exact ⟨[], List.append_nil _⟩
  | cons v t ih =>
    rw [List.foldl_cons]
    by_cases h : v ∈ acc.1
    · simp only [mergeStep, if_pos h]
      exact ih acc
    · simp only [mergeStep, if_neg h]
      exact (List.prefix_append acc.1 [v]).trans (ih (acc.1 ++ [v], acc.2 + 1))

/-- Each merge step grows the list and the counter together. -/
theorem merge_fold_count (l : List String) (acc : List String × Nat) :
    (List.foldl mergeStep acc l).1.length + acc.2
      = acc.1.length + (List.foldl mergeStep acc l).2 := by
  induction l generalizing acc with
  | nil => simp
  | cons v t ih =>
    rw [List.foldl_cons]
    by_cases h : v ∈ acc.1
    · simp only [mergeStep, if_pos h]
      exact ih acc
    · simp only [mergeStep, if_neg h]
      have h2 := ih (acc.1 ++ [v], acc.2 + 1)
      simp only [List.length_append, List.length_cons, List.length_nil] at h2 ⊢
      omega

/-- When every incoming id is already present the merge fold is the
identity (and in particular counts zero additions). -/
theorem merge_fold_all_mem (l : List String) (acc : List String × Nat)
    (h : ∀ v ∈ l, v ∈ acc.1) : List.foldl mergeStep acc l = acc := by
  induction l generalizing acc with
  | nil => rfl
  | cons v t ih =>
    rw [List.foldl_cons]
    have hv : v ∈ acc.1 := h v (by simp)
    simp only [mergeStep, if_pos hv]
    exact ih acc (fun w hw => h w (by simp [hw]))

/-- Ids already accumulated stay members through the merge fold. -/
theorem merge_fold_mem_acc {v : String} (l : List String)
    (acc : List String × Nat) (h : v ∈ acc.1) :
    v ∈ (List.foldl mergeStep acc l).1 := by
  obtain ⟨t, ht⟩ := merge_fold_prefix l acc
  rw [← ht]
  exact List.mem_append_left _ h

/-- Every incoming id is a member of the merge fold result. -/
theorem merge_fold_mem {v : String} (l : List String)
    (acc : List String × Nat) (h : v ∈ l) :
    v ∈ (List.foldl mergeStep acc l).1 := by
  induction l generalizing acc with
  | nil => cases h
  | cons u t ih =>
    rw [List.foldl_cons]
    rcases List.mem_cons.mp h with rfl | hm
    · by_cases hu : v ∈ acc.1
      · simp only [mergeStep, if_pos hu]
        exact merge_fold_mem_acc t acc hu
      · simp only [mergeStep, if_neg hu]
        exact merge_fold_mem_acc t _ (by simp)
    · exact ih _ hm

/-- Membership in the dedup fold. -/
theorem dedup_fold_mem {v : String} (l acc : List String) :
    v ∈ List.foldl dedupStep acc l ↔ v ∈ acc ∨ v ∈ l := by
  induction l generalizing acc with
  | nil => simp
  | cons u t ih =>
    rw [List.foldl_cons]
    by_cases h : u ∈ acc
    · rw [show dedupStep acc u = acc from by simp [dedupStep, h], ih,
        List.mem_cons]
      constructor
      · rintro (ha | ht)
        · exact Or.inl ha
        · exact Or.inr (Or.inr ht)
      · rintro (ha | hvu | ht)
        · exact Or.inl ha
        · exact Or.inl (by rw [hvu]; exact h)
        · exact Or.inr ht
    · rw [show dedupStep acc u = acc ++ [u] from by simp [dedupStep, h], ih,
        List.mem_append, List.mem_singleton, List.mem_cons]
      constructor
      · rintro ((ha | hvu) | ht)
        · exact Or.inl ha
        · exact Or.inr (Or.inl hvu)
        · exact Or.inr (Or.inr ht)
      · rintro (ha | hvu | ht)
        · exact Or.inl (Or.inl ha)
        · exact Or.inl (Or.inr hvu)
        · exact Or.inr ht

/-- dedupIds keeps exactly the members of the chunk. -/
theorem mem_dedupIds {v : String} (l : List String) :
    v ∈ dedupIds l ↔ v ∈ l := by
  simpa [dedupIds] using dedup_fold_mem l []

/-- The dedup fold also preserves its accumulator as a prefix. -/
theorem dedup_fold_prefix (l acc : List String) :
    acc <+: List.foldl dedupStep acc l := by
  induction l generalizing acc with
  | nil => exact ⟨[], List.append_nil _⟩
  | cons v t ih =>
    rw [List.foldl_cons]
    by_cases h : v ∈ acc
    · simp only [dedupStep, if_pos h]
      exact ih acc
    · simp only [dedupStep, if_neg h]
      exact (List.prefix_append acc [v]).trans (ih _)

/-- The first id of a non-empty chunk survives dedup as the head. -/
theorem dedupIds_head (v : String) (l : List String) :
    (dedupIds (v :: l)).head? = some v := by
  have h1 : dedupIds (v :: l) = List.foldl dedupStep [v] l := by
    simp [dedupIds, dedupStep]
  obtain ⟨t, ht⟩ := dedup_fold_prefix l [v]
  rw [h1, ← ht]
  rfl

/-! ### Lemmas about regeneration and the packaged merge -/

/-- Regeneration yields one node per id. -/
theorem regen_length (ids : List String) : (regen ids).length = ids.length := by
  simp [regen]

/-- The node regenerated at position i. -/
theorem regen_get (ids : List String) (i : Nat) (h : i < (regen ids).length) :
    (regen ids).get ⟨i, h⟩ =
      { id := ids.get ⟨i, by simpa [regen_length] using h⟩
        x := (i : ℚ) * (3/10) - (ids.length : ℚ) * (3/20)
        y := 0
        status := "healthy" } := by
  simp [regen, List.get_eq_getElem, List.getElem_map, List.getElem_enum]

/-- The accumulated ids are a prefix of the merged ids. -/
theorem mergeIds_prefix (e l : List String) : e <+: (mergeIds e l).1 :=
  merge_fold_prefix l (e, 0)

/-- The merged list length is the old length plus the added count. -/
theorem mergeIds_length (e l : List String) :
    (mergeIds e l).1.length = e.length + (mergeIds e l).2 := by
  simpa [mergeIds] using merge_fold_count l (e, 0)

/-- Adding nothing means the id list is untouched. -/
theorem mergeIds_zero (e l : List String) (h : (mergeIds e l).2 = 0) :
    (mergeIds e l).1 = e := by
  obtain ⟨t, ht⟩ := mergeIds_prefix e l
  have hlen := mergeIds_length e l
  rw [h] at hlen
  have ht0 : t = [] := by
    have hc := congrArg List.length ht
    simp only [List.length_append] at hc
    rw [hlen] at hc
    have : t.length = 0 := by omega
    exact List.length_eq_zero.mp this
  rw [← ht, ht0, List.append_nil]

/-- A merge over ids that are all already present is the identity. -/
theorem mergeIds_all_mem (e l : List String) (h : ∀ v ∈ l, v ∈ e) :
    mergeIds e l = (e, 0) := by
  simpa [mergeIds] using merge_fold_all_mem l (e, 0) h

/-- Every incoming id appears in the merged list. -/
theorem mergeIds_mem {v : String} (e l : List String) (h : v ∈ e ∨ v ∈ l) :
    v ∈ (mergeIds e l).1 := by
  cases h with
  | inl h => exact merge_fold_mem_acc l (e, 0) h
  | inr h => exact merge_fold_mem l (e, 0) h

/-! ### Shape of the state after each operation -/

/-- The replay record produced by the merge branch of either ingestion
path: merged ids, conditional regeneration, refreshed timestamp, and the
job id the branch chooses. -/
def mergedData (d : ReplayData) (c : List String) (now jid : String) : ReplayData where
  services :=
    if (mergeIds d.all_service_ids (dedupIds c)).2 > 0
    then regen (mergeIds d.all_service_ids (dedupIds c)).1
    else d.services
  all_service_ids := (mergeIds d.all_service_ids (dedupIds c)).1
  timestamp := now
  job_id := jid

/-- The replay record created by the first-ingestion branch of either
path. -/
def freshData (c : List String) (now jid : String) : ReplayData where
  services := regen (dedupIds c)
  all_service_ids := dedupIds c
  timestamp := now
  job_id := jid

/-- append_chunk on existing replay data keeps job_id and returns the
added count. -/
theorem append_some_shape (c : List String) (now : String) (s : SysState)
    (d : ReplayData) (hr : s.replay = some d) :
    append_chunk (some c) now s =
      ({ s with replay := some (mergedData d c now d.job_id) },
       Except.ok (mergeIds d.all_service_ids (dedupIds c)).2) := by
  simp [append_chunk, hr, mergedData]

/-- append_chunk creating the replay data on first ingestion sets job_id
to the first (deduped) id. -/
theorem append_none_shape (c : List String) (now : String) (s : SysState)
    (hr : s.replay = none) :
    append_chunk (some c) now s =
      ({ s with replay := some (freshData c now ((dedupIds c).head?.getD "")) },
       Except.ok (dedupIds c).length) := by
  simp [append_chunk, hr, freshData]

/-- parse_arrow_replay on existing replay data overwrites job_id with the
last raw id of the file. -/
theorem replace_some_shape (c : List String) (now : String) (s : SysState)
    (d : ReplayData) (hr : s.replay = some d) :
    (parse_arrow_replay (some c) now s).1 =
      { s with replay := some (mergedData d c now (c.getLast?.getD "")) } := by
  simp [parse_arrow_replay, hr, mergedData]

/-- parse_arrow_replay creating the replay data. -/
theorem replace_none_shape (c : List String) (now : String) (s : SysState)
    (hr : s.replay = none) :
    (parse_arrow_replay (some c) now s).1 =
      { s with replay := some (freshData c now (c.getLast?.getD "")) } := by
  simp [parse_arrow_replay, hr, freshData]

/-- render_service_by_index never writes the state. -/
theorem render_by_state (i : Nat) (s : SysState) :
    (render_service_by_index i s).1 = s := by
  simp only [render_service_by_index]
  split_ifs <;> rfl

/-- The scheduler operations never touch the replay data. -/
theorem transition_replay (s : SysState) : (transition s).1.replay = s.replay := by
  simp only [transition]
  split_ifs <;> rfl

/-- start_service_animation never touches the replay data. -/
theorem start_replay (s : SysState) :
    (start_service_animation s).1.replay = s.replay := by
  simp only [start_service_animation]
  split_ifs <;> rfl

/-! ### Branch shapes of the scheduler operations -/

/-- A stale timer (running already false) does nothing at all. -/
theorem transition_shape_stale (s : SysState) (h : s.running = false) :
    transition s = (s, { rendered := false, rearmed := false }) := by
  simp [transition, h]

/-- An active timer finding no services clears the flag and stops. -/
theorem transition_shape_empty (s : SysState) (hrun : s.running = true)
    (hsvc : servicesOf s = []) :
    (transition s).1 = { s with running := false } := by
  simp [transition, hrun, hsvc]

/-- An active timer with services and a renderer advances the index
modulo the freshly read length. -/
theorem transition_shape_go (s : SysState) (hrun : s.running = true)
    (hsvc : servicesOf s ≠ []) (hren : s.rendererInit = true) :
    (transition s).1 =
      { s with currentIndex := (s.currentIndex + 1) % (servicesOf s).length } := by
  simp [transition, hrun, hsvc, hren]

/-- An active timer without a renderer skips the index write. -/
theorem transition_shape_norender (s : SysState) (hrun : s.running = true)
    (hsvc : servicesOf s ≠ []) (hren : s.rendererInit = false) :
    (transition s).1 = s := by
  simp [transition, hrun, hsvc, hren]

/-! ### The global state invariant -/

/-- Invariant of the shared state: services and ids agree in length, and
the rotation index is in range whenever services exist (and still 0 while
none do). -/
def Inv (s : SysState) : Prop :=
  (∀ d, s.replay = some d → d.services.length = d.all_service_ids.length) ∧
  (servicesOf s = [] → s.currentIndex = 0) ∧
  (servicesOf s ≠ [] → s.currentIndex < (servicesOf s).length)

theorem inv_init (r : Bool) : Inv (initState r) := by
  refine ⟨?_, ?_, ?_⟩
  · intro d hd
    simp [initState] at hd
  · intro _
    rfl
  · intro hne
    exact absurd rfl hne

/-- servicesOf after swapping in new replay data. -/
theorem servicesOf_set_replay (s : SysState) (d1 : ReplayData) :
    servicesOf { s with replay := some d1 } = d1.services := by
  simp [servicesOf]

/-- Installing replay data whose services list satisfies the length
invariant and did not shrink preserves Inv. -/
theorem inv_set_replay (s : SysState) (d1 : ReplayData) (h : Inv s)
    (hd : d1.services.length = d1.all_service_ids.length)
    (hgrow : (servicesOf s).length ≤ d1.services.length) :
    Inv { s with replay := some d1 } := by
  obtain ⟨hLen, hEmpty, hIdx⟩ := h
  refine ⟨?_, ?_, ?_⟩
  · intro d0 hd0
    have : some d1 = some d0 := hd0
    cases this
    exact hd
  · intro he
    rw [servicesOf_set_replay] at he
    have h0 : (servicesOf s).length = 0 := by
      rw [he] at hgrow
      simpa using hgrow
    exact hEmpty (List.length_eq_zero.mp h0)
  · intro hne
    rw [servicesOf_set_replay] at hne ⊢
    have hpos : 0 < d1.services.length := List.length_pos.mpr hne
    by_cases hse : servicesOf s = []
    · rw [hEmpty hse]
      exact hpos
    · exact lt_of_lt_of_le (hIdx hse) hgrow

/-- Inv only looks at replay and currentIndex. -/
theorem inv_of_eq_core (s s1 : SysState) (h : Inv s)
    (hr : s1.replay = s.replay) (hi : s1.currentIndex = s.currentIndex) :
    Inv s1 := by
  obtain ⟨hLen, hEmpty, hIdx⟩ := h
  have hsvc : servicesOf s1 = servicesOf s := by
    simp [servicesOf, hr]
  refine ⟨?_, ?_, ?_⟩
  · intro d0 hd0
    exact hLen d0 (by rw [← hr]; exact hd0)
  · intro he
    rw [hi]
    exact hEmpty (by rw [← hsvc]; exact he)
  · intro hne
    rw [hi, hsvc]
    exact hIdx (by rw [← hsvc]; exact hne)

/-- The length facts for the merged replay record. -/
theorem mergedData_len (d : ReplayData) (c : List String) (now jid : String)
    (hlen : d.services.length = d.all_service_ids.length) :
    (mergedData d c now jid).services.length
      = (mergedData d c now jid).all_service_ids.length ∧
    d.services.length ≤ (mergedData d c now jid).services.length := by
  by_cases hm : (mergeIds d.all_service_ids (dedupIds c)).2 > 0
  · simp only [mergedData, if_pos hm, regen_length]
    refine ⟨trivial, ?_⟩
    rw [hlen, mergeIds_length]
    omega
  · have h0 : (mergeIds d.all_service_ids (dedupIds c)).2 = 0 := by omega
    simp only [mergedData, if_neg hm, mergeIds_zero _ _ h0]
    exact ⟨hlen, le_refl _⟩

/-- The length fact for freshly created replay data. -/
theorem freshData_len (c : List String) (now jid : String) :
    (freshData c now jid).services.length
      = (freshData c now jid).all_service_ids.length := by
  simp [freshData, regen_length]

/-- Every event preserves Inv. -/
theorem inv_applyStep (s : SysState) (st : Step) (h : Inv s) :
    Inv (applyStep s st) := by
  obtain ⟨hLen, hEmpty, hIdx⟩ := h
  cases st with
  | append input now =>
    cases input with
    | none => exact ⟨hLen, hEmpty, hIdx⟩
    | some c =>
      cases hr : s.replay with
      | some d =>
        have hshape := append_some_shape c now s d hr
        have hpost : applyStep s (Step.append (some c) now)
            = { s with replay := some (mergedData d c now d.job_id) } := by
          simp [applyStep, hshape]
        rw [hpost]
        obtain ⟨h1, h2⟩ := mergedData_len d c now d.job_id (hLen d hr)
        refine inv_set_replay s _ ⟨hLen, hEmpty, hIdx⟩ h1 ?_
        have : servicesOf s = d.services := by simp [servicesOf, hr]
        rw [this]
        exact h2
      | none =>
        have hshape := append_none_shape c now s hr
        have hpost : applyStep s (Step.append (some c) now)
            = { s with replay := some (freshData c now ((dedupIds c).head?.getD "")) } := by
          simp [applyStep, hshape]
        rw [hpost]
        refine inv_set_replay s _ ⟨hLen, hEmpty, hIdx⟩ (freshData_len c now _) ?_
        have : servicesOf s = [] := by simp [servicesOf, hr]
        rw [this]
        simp
  | replace input now =>
    cases input with
    | none => exact ⟨hLen, hEmpty, hIdx⟩
    | some c =>
      cases hr : s.replay with
      | some d =>
        have hpost : applyStep s (Step.replace (some c) now)
            = { s with replay := some (mergedData d c now (c.getLast?.getD "")) } := by
          simp [applyStep, replace_some_shape c now s d hr]
        rw [hpost]
        obtain ⟨h1, h2⟩ := mergedData_len d c now (c.getLast?.getD "") (hLen d hr)
        refine inv_set_replay s _ ⟨hLen, hEmpty, hIdx⟩ h1 ?_
        have : servicesOf s = d.services := by simp [servicesOf, hr]
        rw [this]
        exact h2
      | none =>
        have hpost : applyStep s (Step.replace (some c) now)
            = { s with replay := some (freshData c now (c.getLast?.getD "")) } := by
          simp [applyStep, replace_none_shape c now s hr]
        rw [hpost]
        refine inv_set_replay s _ ⟨hLen, hEmpty, hIdx⟩ (freshData_len c now _) ?_
        have : servicesOf s = [] := by simp [servicesOf, hr]
        rw [this]
        simp
  | fire =>
    cases hrun : s.running with
    | false =>
      have hpost : applyStep s Step.fire = s := by
        simp [applyStep, transition_shape_stale s hrun]
      rw [hpost]
      exact ⟨hLen, hEmpty, hIdx⟩
    | true =>
      by_cases hsvc : servicesOf s = []
      · have hpost : applyStep s Step.fire = { s with running := false } := by
          simp [applyStep, transition_shape_empty s hrun hsvc]
        rw [hpost]
        exact inv_of_eq_core s _ ⟨hLen, hEmpty, hIdx⟩ rfl rfl
      · cases hren : s.rendererInit with
        | false =>
          have hpost : applyStep s Step.fire = s := by
            simp [applyStep, transition_shape_norender s hrun hsvc hren]
          rw [hpost]
          exact ⟨hLen, hEmpty, hIdx⟩
        | true =>
          have hpost : applyStep s Step.fire
              = { s with currentIndex := (s.currentIndex + 1) % (servicesOf s).length } := by
            simp [applyStep, transition_shape_go s hrun hsvc hren]
          rw [hpost]
          refine ⟨hLen, ?_, ?_⟩
          · intro he
            have : servicesOf { s with currentIndex := (s.currentIndex + 1) % (servicesOf s).length } = servicesOf s := by
              simp [servicesOf]
            rw [this] at he
            exact absurd he hsvc
          · intro _
            have hs1 : servicesOf { s with currentIndex := (s.currentIndex + 1) % (servicesOf s).length } = servicesOf s := by
              simp [servicesOf]
            rw [hs1]
            exact Nat.mod_lt _ (List.length_pos.mpr hsvc)
  | start =>
    by_cases hrun : s.running
    · have hpost : applyStep s Step.start = s := by
        simp [applyStep, start_service_animation, hrun]
      rw [hpost]
      exact ⟨hLen, hEmpty, hIdx⟩
    · by_cases hsvc : servicesOf s = []
      · have hpost : applyStep s Step.start = s := by
          simp [applyStep, start_service_animation, hrun, hsvc]
        rw [hpost]
        exact ⟨hLen, hEmpty, hIdx⟩
      · cases hren : s.rendererInit with
        | false =>
          have hpost : applyStep s Step.start = { s with running := true } := by
            simp [applyStep, start_service_animation, hrun, hsvc, hren]
            split <;> rfl
          rw [hpost]
          exact inv_of_eq_core s _ ⟨hLen, hEmpty, hIdx⟩ rfl rfl
        | true =>
          have hpost : applyStep s Step.start
              = { s with currentIndex := 0, running := true } := by
            simp [applyStep, start_service_animation, hrun, hsvc, hren]
          rw [hpost]
          refine ⟨hLen, ?_, ?_⟩
          · intro he
            rfl
          · intro hne
            have hs1 : servicesOf { s with currentIndex := 0, running := true } = servicesOf s := by
              simp [servicesOf]
            rw [hs1]
            exact List.length_pos.mpr (by rw [← hs1]; exact hne)
  | stop =>
    have hpost : applyStep s Step.stop = { s with running := false } := by
      simp [applyStep, stop_animation]
    rw [hpost]
    exact inv_of_eq_core s _ ⟨hLen, hEmpty, hIdx⟩ rfl rfl
  | renderBy i =>
    have hpost : applyStep s (Step.renderBy i) = s := by
      simp [applyStep, render_by_state]
    rw [hpost]
    exact ⟨hLen, hEmpty, hIdx⟩

/-- Inv holds after any event sequence from any invariant state. -/
theorem inv_runSteps (steps : List Step) (s : SysState) (h : Inv s) :
    Inv (runSteps steps s) := by
  induction steps generalizing s with
  | nil => exact h
  | cons st t ih =>
    exact ih (applyStep s st) (inv_applyStep s st h)

/-- Inv holds in every reachable state. -/
theorem inv_reachable (r : Bool) (steps : List Step) :
    Inv (runSteps steps (initState r)) :=
  inv_runSteps steps (initState r) (inv_init r)

/-! ### Monotone growth of allServiceIds -/

/-- A single event only ever appends to allServiceIds. -/
theorem allIds_prefix_applyStep (s : SysState) (st : Step) :
    allIdsOf s <+: allIdsOf (applyStep s st) := by
  have hrefl : allIdsOf s <+: allIdsOf s := ⟨[], List.append_nil _⟩
  cases st with
  | append input now =>
    cases input with
    | none => exact hrefl
    | some c =>
      cases hr : s.replay with
      | some d =>
        have hpost : applyStep s (Step.append (some c) now)
            = { s with replay := some (mergedData d c now d.job_id) } := by
          simp [applyStep, append_some_shape c now s d hr]
        rw [hpost]
        have h1 : allIdsOf s = d.all_service_ids := by
          simp [allIdsOf, hr]
        have h2 : allIdsOf { s with replay := some (mergedData d c now d.job_id) }
            = (mergeIds d.all_service_ids (dedupIds c)).1 := by
          simp [allIdsOf, mergedData]
        rw [h1, h2]
        exact mergeIds_prefix _ _
      | none =>
        have h1 : allIdsOf s = [] := by
          simp [allIdsOf, hr]
        rw [h1]
        exact List.nil_prefix
  | replace input now =>
    cases input with
    | none => exact hrefl
    | some c =>
      cases hr : s.replay with
      | some d =>
        have hpost : applyStep s (Step.replace (some c) now)
            = { s with replay := some (mergedData d c now (c.getLast?.getD "")) } := by
          simp [applyStep, replace_some_shape c now s d hr]
        rw [hpost]
        have h1 : allIdsOf s = d.all_service_ids := by
          simp [allIdsOf, hr]
        have h2 : allIdsOf { s with replay := some (mergedData d c now (c.getLast?.getD "")) }
            = (mergeIds d.all_service_ids (dedupIds c)).1 := by
          simp [allIdsOf, mergedData]
        rw [h1, h2]
        exact mergeIds_prefix _ _
      | none =>
        have h1 : allIdsOf s = [] := by
          simp [allIdsOf, hr]
        rw [h1]
        exact List.nil_prefix
  | fire =>
    have h1 : allIdsOf (applyStep s Step.fire) = allIdsOf s := by
      simp [allIdsOf, applyStep, transition_replay]
    rw [h1]
  | start =>
    have h1 : allIdsOf (applyStep s Step.start) = allIdsOf s := by
      simp [allIdsOf, applyStep, start_replay]
    rw [h1]
  | stop =>
    have h1 : allIdsOf (applyStep s Step.stop) = allIdsOf s := by
      simp [allIdsOf, applyStep, stop_animation]
    rw [h1]
  | renderBy i =>
    have h1 : allIdsOf (applyStep s (Step.renderBy i)) = allIdsOf s := by
      simp [allIdsOf, applyStep, render_by_state]
    rw [h1]

/-! ### Idempotence helpers -/

/-- append_chunk on a chunk whose ids are all present: only the timestamp
moves, and the added count is zero. -/
theorem append_chunk_no_new (s : SysState) (d : ReplayData) (c : List String)
    (now : String) (hr : s.replay = some d)
    (hmem : ∀ v ∈ c, v ∈ d.all_service_ids) :
    append_chunk (some c) now s =
      ({ s with replay := some { d with timestamp := now } }, Except.ok 0) := by
  have hm : mergeIds d.all_service_ids (dedupIds c) = (d.all_service_ids, 0) :=
    mergeIds_all_mem _ _ (fun v hv => hmem v ((mem_dedupIds c).mp hv))
  rw [append_some_shape c now s d hr]
  simp [mergedData, hm]

/-- After one append_chunk every id of the chunk is recorded. -/
theorem append_chunk_mem_post (s : SysState) (c : List String) (now : String) :
    ∃ d1, (append_chunk (some c) now s).1.replay = some d1 ∧
      ∀ v ∈ c, v ∈ d1.all_service_ids := by
  cases hr : s.replay with
  | some d =>
    refine ⟨mergedData d c now d.job_id, ?_, ?_⟩
    · simp [append_some_shape c now s d hr]
    · intro v hv
      simp only [mergedData]
      exact mergeIds_mem _ _ (Or.inr ((mem_dedupIds c).mpr hv))
  | none =>
    refine ⟨freshData c now ((dedupIds c).head?.getD ""), ?_, ?_⟩
    · simp [append_none_shape c now s hr]
    · intro v hv
      simp only [freshData]
      exact (mem_dedupIds c).mpr hv

/-! ### Concrete states shared by the witnesses -/

/-- Replay data after one ingested id. -/
def wData : ReplayData where
  services := regen ["a"]
  all_service_ids := ["a"]
  timestamp := "t"
  job_id := "a"

/-- A state holding one ingested id, renderer available. -/
def wState : SysState where
  replay := some wData
  running := false
  currentIndex := 0
  rendererInit := true

/-! ### Claims -/

/-- C1: ingestion idempotence.  First: an append_chunk call whose chunk
ids are all already present in allServiceIds yields added count 0 and
leaves both the services sequence (every ServiceNode identical) and
allServiceIds unchanged (no regeneration).  Second: two append_chunk
calls in a row with the same chunk yield added count 0 on the second
call and an unchanged services sequence and id list. -/
theorem appendChunk_idempotent :
    (∀ (s : SysState) (d : ReplayData) (c : List String) (now : String),
       s.replay = some d → (∀ v ∈ c, v ∈ d.all_service_ids) →
         (append_chunk (some c) now s).2 = Except.ok 0 ∧
         servicesOf (append_chunk (some c) now s).1 = d.services ∧
         allIdsOf (append_chunk (some c) now s).1 = d.all_service_ids) ∧
    (∀ (s : SysState) (c : List String) (n1 n2 : String),
       (append_chunk (some c) n2 (append_chunk (some c) n1 s).1).2 = Except.ok 0 ∧
       servicesOf (append_chunk (some c) n2 (append_chunk (some c) n1 s).1).1
         = servicesOf (append_chunk (some c) n1 s).1 ∧
       allIdsOf (append_chunk (some c) n2 (append_chunk (some c) n1 s).1).1
         = allIdsOf (append_chunk (some c) n1 s).1) := by
  constructor
  · intro s d c now hr hmem
    have h := append_chunk_no_new s d c now hr hmem
    refine ⟨?_, ?_, ?_⟩ <;> simp [h, servicesOf, allIdsOf]
  · intro s c n1 n2
    obtain ⟨d1, hd1, hmem1⟩ := append_chunk_mem_post s c n1
    have h := append_chunk_no_new _ d1 c n2 hd1 hmem1
    refine ⟨?_, ?_, ?_⟩ <;> simp [h, servicesOf, allIdsOf, hd1]

/-- Witness for C1 at a concrete one-id state and its own chunk. -/
theorem appendChunk_idempotent_witness :
    (append_chunk (some ["a"]) "u" wState).2 = Except.ok 0 ∧
    servicesOf (append_chunk (some ["a"]) "u" wState).1 = wData.services ∧
    allIdsOf (append_chunk (some ["a"]) "u" wState).1 = wData.all_service_ids :=
  appendChunk_idempotent.1 wState wData ["a"] "u" rfl (by decide)

/-- C2: monotonicity of allServiceIds.  Along any sequence of events (in
particular any interleaving of append_chunk and parse_arrow_replay
ingestion calls), the id list after the first k+1 events extends the id
list after the first k events: the old list is a prefix, so no recorded
id is ever removed or reordered and new ids only land at the end. -/
theorem allServiceIds_monotone (r : Bool) (cs : List Step) (k : Nat) :
    allIdsOf (runSteps (cs.take k) (initState r))
      <+: allIdsOf (runSteps (cs.take (k + 1)) (initState r)) := by
  rw [List.take_succ]
  cases hc : cs[k]? with
  | none =>
    simp only [hc, Option.toList_none, List.append_nil]
    exact ⟨[], List.append_nil _⟩
  | some st =>
    simp only [hc, Option.toList_some]
    simp only [runSteps, List.foldl_append]
    exact allIds_prefix_applyStep _ st

/-- C3: index safety.  After any event sequence ending in a timer
transition (transitions freely interleaved with ingestion calls that
change the services length), the rotation index is strictly below the
current services length whenever services is non-empty. -/
theorem currentIndex_in_range (r : Bool) (cs : List Step)
    (h : servicesOf (runSteps (cs ++ [Step.fire]) (initState r)) ≠ []) :
    (runSteps (cs ++ [Step.fire]) (initState r)).currentIndex
      < (servicesOf (runSteps (cs ++ [Step.fire]) (initState r))).length :=
  (inv_reachable r (cs ++ [Step.fire])).2.2 h

/-- Witness for C3: ingest one id, start, then fire the timer. -/
theorem currentIndex_in_range_witness :
    servicesOf (runSteps ([Step.append (some ["a"]) "t", Step.start]
        ++ [Step.fire]) (initState true)) ≠ [] ∧
    (runSteps ([Step.append (some ["a"]) "t", Step.start]
        ++ [Step.fire]) (initState true)).currentIndex
      < (servicesOf (runSteps ([Step.append (some ["a"]) "t", Step.start]
          ++ [Step.fire]) (initState true))).length := by
  have hne : servicesOf (runSteps ([Step.append (some ["a"]) "t", Step.start]
      ++ [Step.fire]) (initState true)) ≠ [] := by
    simp [runSteps, applyStep, append_chunk, initState, dedupIds, dedupStep,
      start_service_animation, servicesOf, transition, regen,
      List.enum, List.enumFrom]
  exact ⟨hne, currentIndex_in_range true [Step.append (some ["a"]) "t", Step.start] hne⟩

/-- C4: cooperative cancellation.  stop_animation leaves running false,
and a previously armed timer that then fires performs no render, arms no
new timer, and changes nothing: the whole state (running still false,
currentIndex untouched) is returned as it was. -/
theorem stop_then_stale_timer (s : SysState) :
    (stop_animation s).1.running = false ∧
    transition (stop_animation s).1
      = ((stop_animation s).1, { rendered := false, rearmed := false }) :=
  ⟨rfl, transition_shape_stale _ rfl⟩

/-! ### Regeneration postcondition -/

/-- The property the spec states for a freshly regenerated replay record:
one node per id and, at every index, the spec position formula
x = i * 0.3 - 0.5 * 0.3 * n (with n the id count), y = 0, healthy. -/
def RegenSpec (d1 : ReplayData) : Prop :=
  d1.services.length = d1.all_service_ids.length ∧
  ∀ i : Nat, i < d1.services.length →
    (d1.services.getD i dummyNode).x
        = (i : ℚ) * (3/10) - (1/2) * (3/10) * d1.all_service_ids.length ∧
    (d1.services.getD i dummyNode).y = 0 ∧
    (d1.services.getD i dummyNode).status = "healthy"

/-- The node regenerated at index i satisfies the spec formula (the code
subtracts n * 0.15, which is the same rational as 0.5 * 0.3 * n). -/
theorem regen_spec (ids : List String) (i : Nat) (hi : i < (regen ids).length) :
    ((regen ids).getD i dummyNode).x
        = (i : ℚ) * (3/10) - (1/2) * (3/10) * ids.length ∧
    ((regen ids).getD i dummyNode).y = 0 ∧
    ((regen ids).getD i dummyNode).status = "healthy" := by
  have h2 : (regen ids).getD i dummyNode = (regen ids).get ⟨i, hi⟩ := by
    rw [List.getD_eq_getElem (regen ids) dummyNode hi, List.get_eq_getElem]
  rw [h2, regen_get]
  refine ⟨?_, rfl, rfl⟩
  ring_nf

/-- Any replay record whose services were regenerated from its own id
list satisfies RegenSpec. -/
theorem regenSpec_of_services (d1 : ReplayData)
    (h : d1.services = regen d1.all_service_ids) : RegenSpec d1 := by
  refine ⟨by rw [h, regen_length], ?_⟩
  intro i hi
  rw [h] at hi ⊢
  exact regen_spec d1.all_service_ids i hi

/-- C5: regeneration postcondition.  Whenever an ingestion call adds at
least one new identifier (append_chunk returning a positive count, or
parse_arrow_replay actually changing allServiceIds), the resulting replay
record has len(services) == len(allServiceIds) and every entry i sits at
x = i * 0.3 - 0.5 * 0.3 * n, y = 0, status healthy. -/
theorem regeneration_postcondition :
    (∀ (s : SysState) (c : List String) (now : String) (n : Nat),
       (append_chunk (some c) now s).2 = Except.ok n → 0 < n →
       ∃ d1, (append_chunk (some c) now s).1.replay = some d1 ∧ RegenSpec d1) ∧
    (∀ (s : SysState) (c : List String) (now : String),
       allIdsOf (parse_arrow_replay (some c) now s).1 ≠ allIdsOf s →
       ∃ d1, (parse_arrow_replay (some c) now s).1.replay = some d1 ∧ RegenSpec d1) := by
  constructor
  · intro s c now n hok hpos
    cases hr : s.replay with
    | some d =>
      rw [append_some_shape c now s d hr] at hok
      simp at hok
      have hm : (mergeIds d.all_service_ids (dedupIds c)).2 > 0 := by omega
      refine ⟨mergedData d c now d.job_id, ?_, ?_⟩
      · rw [append_some_shape c now s d hr]
      · exact regenSpec_of_services _ (by simp [mergedData, if_pos hm])
    | none =>
      refine ⟨freshData c now ((dedupIds c).head?.getD ""), ?_, ?_⟩
      · rw [append_none_shape c now s hr]
      · exact regenSpec_of_services _ (by simp [freshData])
  · intro s c now hne
    cases hr : s.replay with
    | some d =>
      by_cases hm : (mergeIds d.all_service_ids (dedupIds c)).2 > 0
      · refine ⟨mergedData d c now (c.getLast?.getD ""), ?_, ?_⟩
        · rw [replace_some_shape c now s d hr]
        · exact regenSpec_of_services _ (by simp [mergedData, if_pos hm])
      · exfalso
        apply hne
        have h0 : (mergeIds d.all_service_ids (dedupIds c)).2 = 0 := by omega
        rw [replace_some_shape c now s d hr]
        simp [allIdsOf, mergedData, mergeIds_zero _ _ h0, hr]
    | none =>
      refine ⟨freshData c now (c.getLast?.getD ""), ?_, ?_⟩
      · rw [replace_none_shape c now s hr]
      · exact regenSpec_of_services _ (by simp [freshData])

/-- Witness for C5: the first chunk ingests one new id. -/
theorem regeneration_postcondition_witness :
    (append_chunk (some ["a"]) "t" (initState true)).2 = Except.ok 1 ∧
    (0 : Nat) < 1 ∧
    ∃ d1, (append_chunk (some ["a"]) "t" (initState true)).1.replay = some d1 ∧
      RegenSpec d1 :=
  ⟨by decide, by decide,
    regeneration_postcondition.1 (initState true) ["a"] "t" 1 (by decide) (by decide)⟩

/-- C6 counterexample: ingesting ids ["a", "b"] into the empty state does
record allServiceIds = ["a", "b"], but the code (x = i * 0.3 - n * 0.15)
places the two services at x = -0.3 and 0.0, not at -0.15 and +0.15 as the
claim states. -/
theorem scenarioA_positions_counterexample :
    allIdsOf ((append_chunk (some ["a", "b"]) "t" (initState true)).1) = ["a", "b"] ∧
    (servicesOf ((append_chunk (some ["a", "b"]) "t" (initState true)).1)).map
        (fun nd => nd.x) ≠ [-(3/20 : ℚ), 3/20] := by
  refine ⟨by decide, ?_⟩
  have hx : (servicesOf ((append_chunk (some ["a", "b"]) "t" (initState true)).1)).map
      (fun nd => nd.x) = [-(3/10 : ℚ), 0] := by
    simp [append_chunk, initState, servicesOf, dedupIds, dedupStep, regen,
      List.enum, List.enumFrom]
    norm_num
  rw [hx]
  intro hc
  injection hc with h1 h2
  norm_num at h1

/-- C6 amended: ingesting a chunk with ids ["a", "b"] into empty state
yields allServiceIds == ["a", "b"] and a services sequence of exactly 2
entries whose x positions are -0.3 and 0.0 (spacing 0.3; the block is
offset half a spacing to the left of center). -/
theorem scenarioA_positions :
    allIdsOf ((append_chunk (some ["a", "b"]) "t" (initState true)).1) = ["a", "b"] ∧
    (servicesOf ((append_chunk (some ["a", "b"]) "t" (initState true)).1)).length = 2 ∧
    (servicesOf ((append_chunk (some ["a", "b"]) "t" (initState true)).1)).map
        (fun nd => nd.x) = [-(3/10 : ℚ), 0] := by
  refine ⟨by decide, by decide, ?_⟩
  simp [append_chunk, initState, servicesOf, dedupIds, dedupStep, regen,
    List.enum, List.enumFrom]
  norm_num

/-- C7 counterexample: before any ingestion there is no jobId at all, and
the very first append_chunk call writes it: with chunk ["a"] the lazily
created ReplayState carries jobId "a", so append_chunk does not leave the
field unchanged on the call that creates the state. -/
theorem jobId_overwrite_counterexample :
    jobIdOf (initState true) = none ∧
    jobIdOf ((append_chunk (some ["a"]) "t" (initState true)).1) = some "a" :=
  ⟨rfl, by decide⟩

/-- C7 amended: append_chunk leaves jobId unchanged on every call made
while ReplayState already exists (malformed chunks included); the one
exception forced by the code is the very first call, which creates
ReplayState and initializes jobId to the first identifier of the chunk
(empty string when the chunk has no ids).  parse_arrow_replay remains the
path that overwrites an existing jobId. -/
theorem jobId_frame :
    (∀ (s : SysState) (d : ReplayData) (input : Option (List String)) (now : String),
       s.replay = some d →
       jobIdOf ((append_chunk input now s).1) = some d.job_id) ∧
    (∀ (s : SysState) (c : List String) (now : String),
       s.replay = none →
       jobIdOf ((append_chunk (some c) now s).1) = some (c.head?.getD "")) := by
  constructor
  · intro s d input now hr
    cases input with
    | none => simp [append_chunk, jobIdOf, hr]
    | some c =>
      rw [append_some_shape c now s d hr]
      simp [jobIdOf, mergedData]
  · intro s c now hr
    rw [append_none_shape c now s hr]
    cases c with
    | nil => simp [jobIdOf, freshData, dedupIds]
    | cons v t => simp [jobIdOf, freshData, dedupIds_head]

/-- Witness for C7 (amended): a later append_chunk keeps the stored job
id. -/
theorem jobId_frame_witness :
    jobIdOf ((append_chunk (some ["b"]) "u" wState).1) = some wData.job_id :=
  jobId_frame.1 wState wData (some ["b"]) "u" rfl

/-- A state holding one ingested id with the renderer still
uninitialized. -/
def oneSvcNoRenderer : SysState where
  replay := some wData
  running := false
  currentIndex := 0
  rendererInit := false

/-- C8 counterexample: start_service_animation on a state with exactly
one service and no initialized renderer returns
RendererUnavailableError, yet leaves running = true: the flag is set
before the single-service render whose failure propagates, so this
failing call does mutate AnimationState. -/
theorem failure_atomicity_counterexample :
    (start_service_animation oneSvcNoRenderer).2
        = Except.error IngestErr.rendererUnavailable ∧
    (start_service_animation oneSvcNoRenderer).1.running = true := by
  constructor
  · decide
  · decide

/-- C8 amended: every failing ingestion or scheduler call leaves the
whole state untouched, with the single exception the counterexample
forces: start_service_animation failing with RendererUnavailableError
(exactly one service, renderer not initialized), which returns the error
with running already set to true and everything else unchanged. -/
theorem failure_atomicity :
    (∀ (s : SysState) (input : Option (List String)) (now : String) (e : IngestErr),
       (append_chunk input now s).2 = Except.error e →
       (append_chunk input now s).1 = s) ∧
    (∀ (s : SysState) (input : Option (List String)) (now : String) (e : IngestErr),
       (parse_arrow_replay input now s).2 = Except.error e →
       (parse_arrow_replay input now s).1 = s) ∧
    (∀ (s : SysState) (i : Nat) (e : IngestErr),
       (render_service_by_index i s).2 = Except.error e →
       (render_service_by_index i s).1 = s) ∧
    (∀ (s : SysState) (e : IngestErr),
       (start_service_animation s).2 = Except.error e →
       (start_service_animation s).1 = s ∨
         (e = IngestErr.rendererUnavailable ∧ s.rendererInit = false ∧
          (servicesOf s).length = 1 ∧
          (start_service_animation s).1 = { s with running := true })) := by
  refine ⟨?_, ?_, ?_, ?_⟩
  · intro s input now e he
    cases input with
    | none => rfl
    | some c =>
      exfalso
      cases hr : s.replay with
      | some d =>
        rw [append_some_shape c now s d hr] at he
        simp at he
      | none =>
        rw [append_none_shape c now s hr] at he
        simp at he
  · intro s input now e he
    cases input with
    | none => rfl
    | some c =>
      exfalso
      cases hr : s.replay with
      | some d =>
        have hs := replace_some_shape c now s d hr
        simp [parse_arrow_replay, hr] at he
      | none =>
        simp [parse_arrow_replay, hr] at he
  · intro s i e he
    exact render_by_state i s
  · intro s e he
    by_cases hrun : s.running
    · simp [start_service_animation, hrun] at he
    · by_cases hsvc : (servicesOf s).isEmpty
      · left
        simp [start_service_animation, hrun, hsvc]
      · cases hren : s.rendererInit with
        | true =>
          exfalso
          by_cases hone : (servicesOf s).length = 1
          · simp [start_service_animation, hrun, hsvc, hren, hone] at he
          · simp [start_service_animation, hrun, hsvc, hren, hone] at he
        | false =>
          by_cases hone : (servicesOf s).length = 1
          · right
            have hE : (start_service_animation s)
                = ({ s with running := true }, Except.error IngestErr.rendererUnavailable) := by
              simp [start_service_animation, hrun, hsvc, hren, hone]
            refine ⟨?_, rfl, hone, ?_⟩
            · rw [hE] at he
              simp at he
              exact he.symm
            · rw [hE]
              simp [hren]
          · exfalso
            simp [start_service_animation, hrun, hsvc, hren, hone] at he

/-- Witness for C8 (amended): a malformed chunk fails with DecodeError
and leaves the state exactly as it was. -/
theorem failure_atomicity_witness :
    (append_chunk none "t" (initState true)).2 = Except.error IngestErr.decode ∧
    (append_chunk none "t" (initState true)).1 = initState true :=
  ⟨rfl, failure_atomicity.1 (initState true) none "t" IngestErr.decode rfl⟩

/-- C9: renderByIndex semantics.  With services non-empty and the
renderer available, render_service_by_index i renders exactly the node at
position i mod len(services) while returning the state untouched (so
running and currentIndex are unchanged); with services empty it fails with
NoDataError and also changes no state. -/
theorem renderByIndex_semantics :
    (∀ (s : SysState) (i : Nat), servicesOf s ≠ [] → s.rendererInit = true →
       (render_service_by_index i s).1 = s ∧
       ∀ (hlt : i % (servicesOf s).length < (servicesOf s).length),
         (render_service_by_index i s).2
           = Except.ok ((servicesOf s).get ⟨i % (servicesOf s).length, hlt⟩)) ∧
    (∀ (s : SysState) (i : Nat), servicesOf s = [] →
       render_service_by_index i s = (s, Except.error IngestErr.noData)) := by
  constructor
  · intro s i hne hren
    have hE : (servicesOf s).isEmpty = false := by simp [hne]
    refine ⟨render_by_state i s, ?_⟩
    intro hlt
    have hstep : render_service_by_index i s
        = (s, Except.ok ((servicesOf s).getD (i % (servicesOf s).length) dummyNode)) := by
      simp [render_service_by_index, hE, hren]
    rw [hstep]
    have hg : (servicesOf s).getD (i % (servicesOf s).length) dummyNode
        = (servicesOf s).get ⟨i % (servicesOf s).length, hlt⟩ := by
      rw [List.getD_eq_getElem (servicesOf s) dummyNode hlt, List.get_eq_getElem]
    rw [hg]
  · intro s i he
    simp [render_service_by_index, he]

/-- Replay data with two services, as in Scenario D. -/
def twoData : ReplayData where
  services := regen ["a", "b"]
  all_service_ids := ["a", "b"]
  timestamp := "t"
  job_id := "b"

/-- A two-service state with the renderer available. -/
def twoState : SysState where
  replay := some twoData
  running := false
  currentIndex := 0
  rendererInit := true

/-- Witness for C9 at Scenario D: index 5 against 2 services reaches the
node at 5 mod 2 = 1 and the state, running flag included, is unchanged. -/
theorem renderByIndex_semantics_witness :
    servicesOf twoState ≠ [] ∧
    (render_service_by_index 5 twoState).1 = twoState ∧
    (render_service_by_index 5 twoState).2
      = Except.ok ((servicesOf twoState).get
          ⟨5 % (servicesOf twoState).length,
           by norm_num [twoState, twoData, servicesOf, regen_length]⟩) := by
  have hne : servicesOf twoState ≠ [] := by
    simp [twoState, twoData, servicesOf, regen, List.enum, List.enumFrom]
  have h := renderByIndex_semantics.1 twoState 5 hne rfl
  exact ⟨hne, h.1, h.2 _⟩

/-- Non-ingestion events cannot create replay data. -/
theorem replay_none_applyStep (s : SysState) (st : Step)
    (h : isIngest st = false) (hr : s.replay = none) :
    (applyStep s st).replay = none := by
  cases st with
  | append input now => simp [isIngest] at h
  | replace input now => simp [isIngest] at h
  | fire => simp [applyStep, transition_replay, hr]
  | start => simp [applyStep, start_replay, hr]
  | stop => simp [applyStep, stop_animation, hr]
  | renderBy i => simp [applyStep, render_by_state, hr]

/-- Non-ingestion event sequences leave replay data absent. -/
theorem replay_none_run (cs : List Step) (s : SysState)
    (h : ∀ st ∈ cs, isIngest st = false) (hr : s.replay = none) :
    (runSteps cs s).replay = none := by
  induction cs generalizing s with
  | nil => exact hr
  | cons st t ih =>
    exact ih (applyStep s st) (fun u hu => h u (List.mem_cons_of_mem _ hu))
      (replay_none_applyStep s st (h st (List.mem_cons_self _ _)) hr)

/-- C10: serviceCount totality.  get_service_count is a total pure read:
after any event sequence containing no ingestion call (so ReplayState was
never created) it returns 0 rather than failing, and on every state it
returns exactly the length of the services sequence. -/
theorem serviceCount_semantics :
    (∀ (r : Bool) (cs : List Step), (∀ st ∈ cs, isIngest st = false) →
       get_service_count (runSteps cs (initState r)) = 0) ∧
    (∀ s : SysState, get_service_count s = (servicesOf s).length) := by
  constructor
  · intro r cs h
    have hr : (runSteps cs (initState r)).replay = none :=
      replay_none_run cs (initState r) h rfl
    simp [get_service_count, hr]
  · intro s
    cases hr : s.replay with
    | none => simp [get_service_count, servicesOf, hr]
    | some d => simp [get_service_count, servicesOf, hr]

/-- Witness for C10: scheduler-only traffic never creates replay data and
the count stays 0. -/
theorem serviceCount_semantics_witness :
    get_service_count (runSteps [Step.start, Step.fire, Step.stop, Step.renderBy 3]
        (initState true)) = 0 :=
  serviceCount_semantics.1 true [Step.start, Step.fire, Step.stop, Step.renderBy 3]
    (by decide)

end Playback

